import Mathlib

/-!
# InternalTemperature: calibration model of the ARM internal temperature sensor

A shallow embedding of `src/InternalTemperature.cpp`.

## Number model

The program computes on C `float`/`double` values.  A value is modelled by `FVal`:
an exact rational, or one of the three IEEE-754 special values `+∞`, `-∞`, `NaN`.

* The operations `+`, `-`, `*`, `/` on finite values are the exact rational operations,
  and there is a single zero.  The rounding of a result to `float` or `double` is a
  separate step, `FVal.toFloat` and `FVal.toDouble` (round to nearest, ties to even,
  gradual underflow, overflow to infinity).
* The special values follow IEEE-754: `x / 0` is `±∞` for `x ≠ 0` and `NaN` for
  `x = 0`; `∞ - ∞`, `0 * ∞`, `∞ / ∞` are `NaN`; every arithmetic operation with a
  `NaN` operand is `NaN`; every ordered comparison with a `NaN` operand is false.
* The methods are embedded with the unrounded operations.  A statement that gives the
  value of a finite result gives the value of the unrounded expression; the statements
  about control flow, range checks and special values do not use such values.  Where a
  statement turns on the value the program computes (the `float` nearest to a bound, two
  Fahrenheit temperatures with the same Celsius image), the roundings of the source
  expression are applied explicitly, as in `toCelsiusRounded`.

The debug output on `Serial` and the hardware access (`begin`, `readRawVoltage`,
`getUniqueID`) are outside the model.
-/

namespace InternalTemperature

/-! ## Values -/

/-- A C floating-point value: an exact rational or an IEEE-754 special value. -/
inductive FVal where
  | fin (q : ℚ)
  | pinf
  | ninf
  | nan
  deriving DecidableEq

namespace FVal

/-- Unary minus. -/
def neg : FVal → FVal
  | fin a => fin (-a)
  | pinf => ninf
  | ninf => pinf
  | nan => nan

/-- Addition; `∞ + (-∞)` is `NaN`. -/
def add : FVal → FVal → FVal
  | fin a, fin b => fin (a + b)
  | fin _, pinf => pinf
  | fin _, ninf => ninf
  | pinf, fin _ => pinf
  | pinf, pinf => pinf
  | pinf, ninf => nan
  | ninf, fin _ => ninf
  | ninf, ninf => ninf
  | ninf, pinf => nan
  | nan, _ => nan
  | _, nan => nan

/-- Subtraction; `∞ - ∞` is `NaN`. -/
def sub : FVal → FVal → FVal
  | fin a, fin b => fin (a - b)
  | fin _, pinf => ninf
  | fin _, ninf => pinf
  | pinf, fin _ => pinf
  | pinf, ninf => pinf
  | pinf, pinf => nan
  | ninf, fin _ => ninf
  | ninf, pinf => ninf
  | ninf, ninf => nan
  | nan, _ => nan
  | _, nan => nan

/-- The infinity with the sign of the rational `a` (`a ≠ 0`), and `NaN` for `a = 0`:
the value of `a * ∞`. -/
def signedInf (a : ℚ) : FVal :=
  if a = 0 then nan else if 0 < a then pinf else ninf

/-- Multiplication; `0 * ∞` is `NaN`. -/
def mul : FVal → FVal → FVal
  | fin a, fin b => fin (a * b)
  | fin a, pinf => signedInf a
  | fin a, ninf => signedInf (-a)
  | pinf, fin b => signedInf b
  | ninf, fin b => signedInf (-b)
  | pinf, pinf => pinf
  | pinf, ninf => ninf
  | ninf, pinf => ninf
  | ninf, ninf => pinf
  | nan, _ => nan
  | _, nan => nan

/-- Division; `x / 0` is `±∞` for finite `x ≠ 0`, `0 / 0` and `∞ / ∞` are `NaN`,
a finite value divided by an infinity is zero. -/
def div : FVal → FVal → FVal
  | fin a, fin b => if b = 0 then signedInf a else fin (a / b)
  | fin _, pinf => fin 0
  | fin _, ninf => fin 0
  | pinf, fin b => if 0 ≤ b then pinf else ninf
  | ninf, fin b => if 0 ≤ b then ninf else pinf
  | pinf, pinf => nan
  | pinf, ninf => nan
  | ninf, pinf => nan
  | ninf, ninf => nan
  | nan, _ => nan
  | _, nan => nan

/-- The comparison `<` of C: false as soon as an operand is `NaN`. -/
def lt : FVal → FVal → Bool
  | fin a, fin b => decide (a < b)
  | fin _, pinf => true
  | ninf, fin _ => true
  | ninf, pinf => true
  | _, _ => false

/-- The comparison `<=` of C: false as soon as an operand is `NaN`. -/
def le : FVal → FVal → Bool
  | fin a, fin b => decide (a ≤ b)
  | fin _, pinf => true
  | ninf, fin _ => true
  | ninf, pinf => true
  | pinf, pinf => true
  | ninf, ninf => true
  | _, _ => false

/-- The comparison `>` of C. -/
def gt (a b : FVal) : Bool := lt b a

/-- The value is `NaN`. -/
def isNaN : FVal → Bool
  | nan => true
  | _ => false

/-- The value is an ordinary number: neither infinite nor `NaN`. -/
def isFinite : FVal → Bool
  | fin _ => true
  | _ => false

instance : Neg FVal := ⟨neg⟩
instance : Add FVal := ⟨add⟩
instance : Sub FVal := ⟨sub⟩
instance : Mul FVal := ⟨mul⟩
instance : Div FVal := ⟨div⟩

end FVal

open FVal

/-! ## Hardware variants and their constants (source lines 28-35) -/

/-- The two families distinguished by the preprocessor: Teensy 3.0/3.1/3.2
(`__MK20DX128__`, `__MK20DX256__`) and every other board. -/
inductive Board where
  | mk20
  | other
  deriving DecidableEq

/-- `DEFAULT_VTEMP25`, in volts. -/
def DEFAULT_VTEMP25 : Board → ℚ
  | .mk20 => 719 / 1000
  | .other => 716 / 1000

/-- `DEFAULT_SLOPE`, in volts per degree Celsius. -/
def DEFAULT_SLOPE : Board → ℚ
  | .mk20 => 172 / 100000
  | .other => 162 / 100000

/-! ## The object state and its methods -/

/-- The two data members of `class InternalTemperature`. -/
structure State where
  slope : FVal
  vTemp25 : FVal
  deriving DecidableEq

/-- The constructor (source lines 44-48). -/
def ctor (b : Board) : State :=
  { slope := fin (DEFAULT_SLOPE b), vTemp25 := fin (DEFAULT_VTEMP25 b) }

/-- Three-argument `convertTemperatureC` (source lines 142-150). -/
def convertTemperatureC (volts vTemp25 slope : FVal) : FVal :=
  fin 25 - ((volts - vTemp25) / slope)

/-- One-argument `convertTemperatureC`: current parameters (source lines 152-154). -/
def State.convertTemperatureC (self : State) (volts : FVal) : FVal :=
  InternalTemperature.convertTemperatureC volts self.vTemp25 self.slope

/-- `convertUncalibratedTemperatureC`: default parameters (source lines 156-158). -/
def convertUncalibratedTemperatureC (b : Board) (volts : FVal) : FVal :=
  convertTemperatureC volts (fin (DEFAULT_VTEMP25 b)) (fin (DEFAULT_SLOPE b))

/-- `setVTemp25` (source lines 262-270): the returned flag and the state after the call. -/
def State.setVTemp25 (self : State) (volts : FVal) : Bool × State :=
  if FVal.lt volts (fin 0) || FVal.gt volts (fin 5) then
    (false, self)
  else
    (true, { self with vTemp25 := volts })

/-- `setSlope` (source lines 272-280): the returned flag and the state after the call. -/
def State.setSlope (b : Board) (self : State) (voltsPerDegreeC : FVal) : Bool × State :=
  if FVal.lt voltsPerDegreeC (fin (DEFAULT_SLOPE b) / fin 10)
      || FVal.gt voltsPerDegreeC (fin (DEFAULT_SLOPE b) * fin 10) then
    (false, self)
  else
    (true, { self with slope := voltsPerDegreeC })

/-- `toCelsius` (source lines 297-300). -/
def toCelsius (temperatureFahrenheit : FVal) : FVal :=
  (temperatureFahrenheit - fin 32) * fin 5 / fin 9

/-- The slope the calibration starts from: `DEFAULT_SLOPE` when `fromDefault`,
the current slope otherwise (source lines 185-191 and 217-223). -/
def State.baseSlope (b : Board) (self : State) (fromDefault : Bool) : FVal :=
  if fromDefault then fin (DEFAULT_SLOPE b) else self.slope

/-- The offset the calibration starts from: `DEFAULT_VTEMP25` when `fromDefault`,
the current `vTemp25` otherwise (source lines 185-191 and 217-223). -/
def State.baseVTemp25 (b : Board) (self : State) (fromDefault : Bool) : FVal :=
  if fromDefault then fin (DEFAULT_VTEMP25 b) else self.vTemp25

/-- `singlePointCalibrationC` (source lines 182-199). -/
def State.singlePointCalibrationC (b : Board) (self : State)
    (actualTemperatureC measuredTemperatureC : FVal) (fromDefault : Bool) : Bool × State :=
  let theSlope := self.baseSlope b fromDefault
  let theVTemp25 := self.baseVTemp25 b fromDefault
  let deltaTemperature := measuredTemperatureC - actualTemperatureC
  let deltaVolts := deltaTemperature * theSlope
  self.setVTemp25 (theVTemp25 - deltaVolts)

/-- `singlePointCalibrationF` (source lines 201-205). -/
def State.singlePointCalibrationF (b : Board) (self : State)
    (actualTemperatureF measuredTemperatureF : FVal) (fromDefault : Bool) : Bool × State :=
  self.singlePointCalibrationC b (toCelsius actualTemperatureF)
    (toCelsius measuredTemperatureF) fromDefault

/-- `dualPointCalibrationC` (source lines 207-251). -/
def State.dualPointCalibrationC (b : Board) (self : State)
    (actualTemperature1C measuredTemperature1C actualTemperature2C measuredTemperature2C : FVal)
    (fromDefault : Bool) : Bool × State :=
  let deltaActual := actualTemperature2C - actualTemperature1C
  let deltaMeasured := measuredTemperature2C - measuredTemperature1C
  let originalSlope := self.baseSlope b fromDefault
  let originalVTemp25 := self.baseVTemp25 b fromDefault
  let newSlope := originalSlope * deltaMeasured / deltaActual
  let r := self.setSlope b newSlope
  if r.1 then
    let newVTemp25 := originalVTemp25 - (measuredTemperature1C - fin 25) * originalSlope
      + (actualTemperature1C - fin 25) * newSlope
    r.2.setVTemp25 newVTemp25
  else
    (false, r.2)

/-- `dualPointCalibrationF` (source lines 253-259). -/
def State.dualPointCalibrationF (b : Board) (self : State)
    (actualTemperature1F measuredTemperature1F actualTemperature2F measuredTemperature2F : FVal)
    (fromDefault : Bool) : Bool × State :=
  self.dualPointCalibrationC b (toCelsius actualTemperature1F) (toCelsius measuredTemperature1F)
    (toCelsius actualTemperature2F) (toCelsius measuredTemperature2F) fromDefault

/-- The slope candidate of `dualPointCalibrationC` (source line 226). -/
def State.dualSlopeCandidate (b : Board) (self : State)
    (actual1 measured1 actual2 measured2 : FVal) (fromDefault : Bool) : FVal :=
  (if fromDefault then fin (DEFAULT_SLOPE b) else self.slope) * (measured2 - measured1)
    / (actual2 - actual1)

/-- The offset candidate of `dualPointCalibrationC` (source line 245). -/
def State.dualOffsetCandidate (b : Board) (self : State)
    (actual1 measured1 actual2 measured2 : FVal) (fromDefault : Bool) : FVal :=
  (if fromDefault then fin (DEFAULT_VTEMP25 b) else self.vTemp25)
    - (measured1 - fin 25) * (if fromDefault then fin (DEFAULT_SLOPE b) else self.slope)
    + (actual1 - fin 25) * self.dualSlopeCandidate b actual1 measured1 actual2 measured2 fromDefault

/-! ## Call sequences -/

/-- A call of one of the six public methods that write the parameters, with its
arguments. -/
inductive Call where
  | setVTemp25 (volts : FVal)
  | setSlope (voltsPerDegreeC : FVal)
  | singlePointCalibrationC (actual measured : FVal) (fromDefault : Bool)
  | singlePointCalibrationF (actual measured : FVal) (fromDefault : Bool)
  | dualPointCalibrationC (actual1 measured1 actual2 measured2 : FVal) (fromDefault : Bool)
  | dualPointCalibrationF (actual1 measured1 actual2 measured2 : FVal) (fromDefault : Bool)

/-- The effect of one call: the returned flag and the state after it. -/
def State.step (b : Board) (self : State) : Call → Bool × State
  | .setVTemp25 v => self.setVTemp25 v
  | .setSlope v => self.setSlope b v
  | .singlePointCalibrationC a m fd => self.singlePointCalibrationC b a m fd
  | .singlePointCalibrationF a m fd => self.singlePointCalibrationF b a m fd
  | .dualPointCalibrationC a1 m1 a2 m2 fd => self.dualPointCalibrationC b a1 m1 a2 m2 fd
  | .dualPointCalibrationF a1 m1 a2 m2 fd => self.dualPointCalibrationF b a1 m1 a2 m2 fd

/-- The state after a sequence of calls, whatever each call returns. -/
def State.run (b : Board) (self : State) : List Call → State
  | [] => self
  | c :: cs => State.run b (self.step b c).2 cs

/-- The two range invariants of the data model: `0 ≤ vTemp25 ≤ 5` and
`DEFAULT_SLOPE / 10 ≤ slope ≤ DEFAULT_SLOPE * 10`. -/
def State.inRange (b : Board) (self : State) : Prop :=
  (FVal.le (fin 0) self.vTemp25 = true ∧ FVal.le self.vTemp25 (fin 5) = true) ∧
  (FVal.le (fin (DEFAULT_SLOPE b / 10)) self.slope = true
    ∧ FVal.le self.slope (fin (DEFAULT_SLOPE b * 10)) = true)

/-- The range invariants up to `NaN`: each parameter is within its range or is `NaN`. -/
def State.inRangeOrNaN (b : Board) (self : State) : Prop :=
  ((FVal.le (fin 0) self.vTemp25 = true ∧ FVal.le self.vTemp25 (fin 5) = true)
    ∨ self.vTemp25 = nan) ∧
  ((FVal.le (fin (DEFAULT_SLOPE b / 10)) self.slope = true
    ∧ FVal.le self.slope (fin (DEFAULT_SLOPE b * 10)) = true) ∨ self.slope = nan)

/-! ## Rounding to binary32 and binary64 -/

/-- Round to the nearest integer, a tie going to the even one. -/
def roundHalfEven (q : ℚ) : ℤ :=
  if q - ⌊q⌋ < 1 / 2 then ⌊q⌋
  else if 1 / 2 < q - ⌊q⌋ then ⌊q⌋ + 1
  else if ⌊q⌋ % 2 = 0 then ⌊q⌋ else ⌊q⌋ + 1

/-- The value a rational takes in the binary floating-point format with `prec`
significant bits, least exponent `emin` of the unit in the last place and overflow
threshold `2 ^ emax`: round to nearest, ties to even, gradual underflow, overflow to the
infinity of the same sign. -/
def roundRat (prec emin emax : ℤ) (q : ℚ) : FVal :=
  if q = 0 then fin 0
  else if (2 : ℚ) ^ emax
      ≤ |(roundHalfEven (q / 2 ^ max (Int.log 2 |q| - (prec - 1)) emin) : ℚ)
          * 2 ^ max (Int.log 2 |q| - (prec - 1)) emin| then
    (if 0 < q then pinf else ninf)
  else
    fin (roundHalfEven (q / 2 ^ max (Int.log 2 |q| - (prec - 1)) emin)
      * 2 ^ max (Int.log 2 |q| - (prec - 1)) emin)

/-- Conversion to `float` (IEEE-754 binary32). -/
def FVal.toFloat : FVal → FVal
  | fin q => roundRat 24 (-149) 128 q
  | x => x

/-- Conversion to `double` (IEEE-754 binary64). -/
def FVal.toDouble : FVal → FVal
  | fin q => roundRat 53 (-1074) 1024 q
  | x => x

/-- `toCelsius` (source lines 297-300) with the rounding the program performs: the
subtraction in `float`, the multiplication by `5.0` and the division by `9.0` in `double`,
the returned value converted to `float`. -/
def toCelsiusRounded (temperatureFahrenheit : FVal) : FVal :=
  FVal.toFloat (FVal.toDouble (FVal.toDouble
    (FVal.toFloat (temperatureFahrenheit - fin 32) * fin 5) / fin 9))

/-! ## Arithmetic of the value model -/

section ValueLemmas

@[simp] theorem FVal.fin_add_fin (a b : ℚ) : fin a + fin b = fin (a + b) := rfl

@[simp] theorem FVal.fin_sub_fin (a b : ℚ) : fin a - fin b = fin (a - b) := rfl

@[simp] theorem FVal.fin_mul_fin (a b : ℚ) : fin a * fin b = fin (a * b) := rfl

theorem FVal.fin_div_fin (a b : ℚ) :
    fin a / fin b = if b = 0 then signedInf a else fin (a / b) := rfl

@[simp] theorem FVal.fin_div_fin_of_ne (a : ℚ) {b : ℚ} (hb : b ≠ 0) :
    fin a / fin b = fin (a / b) := by
  rw [FVal.fin_div_fin, if_neg hb]

@[simp] theorem FVal.lt_fin_fin (a b : ℚ) : FVal.lt (fin a) (fin b) = decide (a < b) := rfl

@[simp] theorem FVal.gt_fin_fin (a b : ℚ) : FVal.gt (fin a) (fin b) = decide (b < a) := rfl

@[simp] theorem FVal.le_fin_fin (a b : ℚ) : FVal.le (fin a) (fin b) = decide (a ≤ b) := rfl

@[simp] theorem FVal.lt_nan_left (x : FVal) : FVal.lt nan x = false := rfl

@[simp] theorem FVal.lt_nan_right (x : FVal) : FVal.lt x nan = false := by
  cases x <;> rfl

@[simp] theorem FVal.gt_nan_left (x : FVal) : FVal.gt nan x = false := by
  cases x <;> rfl

@[simp] theorem FVal.le_nan_left (x : FVal) : FVal.le nan x = false := rfl

@[simp] theorem FVal.le_nan_right (x : FVal) : FVal.le x nan = false := by
  cases x <;> rfl

@[simp] theorem FVal.nan_add (x : FVal) : nan + x = nan := by cases x <;> rfl

@[simp] theorem FVal.add_nan (x : FVal) : x + nan = nan := by cases x <;> rfl

@[simp] theorem FVal.nan_sub (x : FVal) : nan - x = nan := by cases x <;> rfl

@[simp] theorem FVal.sub_nan (x : FVal) : x - nan = nan := by cases x <;> rfl

@[simp] theorem FVal.nan_mul (x : FVal) : nan * x = nan := by cases x <;> rfl

@[simp] theorem FVal.mul_nan (x : FVal) : x * nan = nan := by cases x <;> rfl

@[simp] theorem FVal.nan_div (x : FVal) : nan / x = nan := by cases x <;> rfl

@[simp] theorem FVal.div_nan (x : FVal) : x / nan = nan := by cases x <;> rfl

@[simp] theorem FVal.pinf_add_fin (a : ℚ) : pinf + fin a = pinf := rfl

@[simp] theorem FVal.ninf_add_fin (a : ℚ) : ninf + fin a = ninf := rfl

@[simp] theorem FVal.fin_add_pinf (a : ℚ) : fin a + pinf = pinf := rfl

@[simp] theorem FVal.fin_add_ninf (a : ℚ) : fin a + ninf = ninf := rfl

@[simp] theorem FVal.pinf_sub_fin (a : ℚ) : pinf - fin a = pinf := rfl

@[simp] theorem FVal.ninf_sub_fin (a : ℚ) : ninf - fin a = ninf := rfl

@[simp] theorem FVal.fin_sub_pinf (a : ℚ) : fin a - pinf = ninf := rfl

@[simp] theorem FVal.fin_sub_ninf (a : ℚ) : fin a - ninf = pinf := rfl

@[simp] theorem FVal.pinf_sub_pinf : pinf - pinf = nan := rfl

@[simp] theorem FVal.ninf_sub_ninf : ninf - ninf = nan := rfl

@[simp] theorem FVal.pinf_sub_ninf : pinf - ninf = pinf := rfl

@[simp] theorem FVal.ninf_sub_pinf : ninf - pinf = ninf := rfl

@[simp] theorem FVal.pinf_mul_fin (a : ℚ) : pinf * fin a = signedInf a := rfl

@[simp] theorem FVal.ninf_mul_fin (a : ℚ) : ninf * fin a = signedInf (-a) := rfl

@[simp] theorem FVal.fin_mul_pinf (a : ℚ) : fin a * pinf = signedInf a := rfl

@[simp] theorem FVal.fin_mul_ninf (a : ℚ) : fin a * ninf = signedInf (-a) := rfl

@[simp] theorem FVal.pinf_div_fin (a : ℚ) : pinf / fin a = if 0 ≤ a then pinf else ninf := rfl

@[simp] theorem FVal.ninf_div_fin (a : ℚ) : ninf / fin a = if 0 ≤ a then ninf else pinf := rfl

@[simp] theorem FVal.fin_div_pinf (a : ℚ) : fin a / pinf = fin 0 := rfl

@[simp] theorem FVal.fin_div_ninf (a : ℚ) : fin a / ninf = fin 0 := rfl

theorem FVal.signedInf_of_pos {a : ℚ} (h : 0 < a) : signedInf a = pinf := by
  unfold signedInf
  rw [if_neg (ne_of_gt h), if_pos h]

theorem FVal.signedInf_of_neg {a : ℚ} (h : a < 0) : signedInf a = ninf := by
  unfold signedInf
  rw [if_neg (ne_of_lt h), if_neg (not_lt.mpr (le_of_lt h))]

@[simp] theorem FVal.signedInf_ne_fin (a z : ℚ) : signedInf a ≠ fin z := by
  unfold signedInf
  split_ifs <;> simp

/-- On every value other than `NaN`, "not below `lo` and not above `hi`" is the same
as "between `lo` and `hi`"; on `NaN` the first holds and the second fails. -/
theorem FVal.not_lt_not_gt_iff (x : FVal) (lo hi : ℚ) :
    (FVal.lt x (fin lo) || FVal.gt x (fin hi)) = false ↔
      (FVal.le (fin lo) x = true ∧ FVal.le x (fin hi) = true) ∨ x = nan := by
  cases x <;> simp [FVal.lt, FVal.gt, FVal.le]

/-- A value between two finite bounds is finite. -/
theorem FVal.eq_fin_of_le_of_le {x : FVal} {lo hi : ℚ}
    (h1 : FVal.le (fin lo) x = true) (h2 : FVal.le x (fin hi) = true) :
    ∃ k : ℚ, x = fin k ∧ lo ≤ k ∧ k ≤ hi := by
  cases x with
  | fin k => exact ⟨k, rfl, by simpa using h1, by simpa using h2⟩
  | pinf => simp [FVal.le] at h2
  | ninf => simp [FVal.le] at h1
  | nan => simp at h1

/-- A difference is finite only when both operands are. -/
theorem FVal.sub_eq_fin {x y : FVal} {z : ℚ} (h : x - y = fin z) :
    ∃ a c : ℚ, x = fin a ∧ y = fin c ∧ z = a - c := by
  cases x <;> cases y <;> first
    | (rename_i a c
       exact ⟨a, c, rfl, rfl, by simpa using h.symm⟩)
    | exact absurd h (by intro h0; cases h0)

end ValueLemmas

/-! ## Evaluating the rounding -/

/-- A rational within less than one half of an integer rounds to it. -/
theorem roundHalfEven_of_abs_lt {x : ℚ} {m : ℤ} (h : |x - m| < 1 / 2) :
    roundHalfEven x = m := by
  rw [abs_lt] at h
  obtain ⟨h1, h2⟩ := h
  unfold roundHalfEven
  by_cases hx : (m : ℚ) ≤ x
  · have hf : ⌊x⌋ = m := Int.floor_eq_iff.mpr ⟨hx, by linarith⟩
    rw [hf, if_pos (by linarith)]
  · push_neg at hx
    have hf : ⌊x⌋ = m - 1 := Int.floor_eq_iff.mpr ⟨by push_cast; linarith, by push_cast; linarith⟩
    rw [hf]
    push_cast
    rw [if_neg (by linarith), if_pos (by linarith)]
    ring

/-- A rational halfway between two integers rounds to the even one. -/
theorem roundHalfEven_of_tie {x : ℚ} {m : ℤ} (h : x = m + 1 / 2 ∨ x = m - 1 / 2)
    (hm : m % 2 = 0) : roundHalfEven x = m := by
  unfold roundHalfEven
  rcases h with h | h
  · have hf : ⌊x⌋ = m := Int.floor_eq_iff.mpr ⟨by linarith, by linarith⟩
    rw [hf, if_neg (by linarith), if_neg (by linarith), if_pos hm]
  · have hf : ⌊x⌋ = m - 1 := Int.floor_eq_iff.mpr ⟨by push_cast; linarith, by push_cast; linarith⟩
    rw [hf]
    push_cast
    rw [if_neg (by linarith), if_neg (by linarith), if_neg (by omega)]
    ring

/-- The rounded value of a non-zero rational in the normal range, from the exponent `e`
of its unit in the last place and the rounded significand `m`. -/
theorem roundRat_eq (prec emin emax : ℤ) {q : ℚ} (e m : ℤ) (hq : q ≠ 0)
    (hlo : (2 : ℚ) ^ (e + (prec - 1)) ≤ |q|) (hhi : |q| < (2 : ℚ) ^ (e + (prec - 1) + 1))
    (he : emin ≤ e) (hm : roundHalfEven (q / 2 ^ e) = m)
    (hov : |(m : ℚ) * 2 ^ e| < 2 ^ emax) :
    roundRat prec emin emax q = fin (m * 2 ^ e) := by
  have hpos : 0 < |q| := abs_pos.mpr hq
  have hlog : Int.log 2 |q| = e + (prec - 1) := by
    apply le_antisymm
    · have := (Int.lt_zpow_iff_log_lt (R := ℚ) (b := 2) (by norm_num) hpos).1 (by exact_mod_cast hhi)
      omega
    · exact (Int.zpow_le_iff_le_log (R := ℚ) (b := 2) (by norm_num) hpos).1 (by exact_mod_cast hlo)
  have hexp : max (Int.log 2 |q| - (prec - 1)) emin = e := by
    rw [hlog]
    have : e + (prec - 1) - (prec - 1) = e := by ring
    rw [this]
    exact max_eq_left he
  unfold roundRat
  rw [if_neg hq, hexp, hm, if_neg (not_le.mpr hov)]

/-! ## Conversion -/

/-- The range check of `setVTemp25` accepts exactly the values of `[0, 5]` and `NaN`. -/
theorem setVTemp25_fst (s : State) (v : FVal) :
    (s.setVTemp25 v).1 = true ↔
      (FVal.le (fin 0) v = true ∧ FVal.le v (fin 5) = true) ∨ v = nan := by
  rw [← FVal.not_lt_not_gt_iff]
  unfold State.setVTemp25
  cases h : (FVal.lt v (fin 0) || FVal.gt v (fin 5)) <;> simp [h]

/-- The state after `setVTemp25`: the value is stored exactly when the call succeeds. -/
theorem setVTemp25_snd (s : State) (v : FVal) :
    (s.setVTemp25 v).2 = if (s.setVTemp25 v).1 then { s with vTemp25 := v } else s := by
  unfold State.setVTemp25
  split <;> simp

/-- `setVTemp25` never touches `slope`. -/
theorem setVTemp25_slope (s : State) (v : FVal) : (s.setVTemp25 v).2.slope = s.slope := by
  unfold State.setVTemp25
  split <;> rfl

/-- The range check of `setSlope` accepts exactly the values of
`[DEFAULT_SLOPE / 10, DEFAULT_SLOPE * 10]` and `NaN`. -/
theorem setSlope_fst (b : Board) (s : State) (v : FVal) :
    (s.setSlope b v).1 = true ↔
      (FVal.le (fin (DEFAULT_SLOPE b / 10)) v = true
        ∧ FVal.le v (fin (DEFAULT_SLOPE b * 10)) = true) ∨ v = nan := by
  rw [← FVal.not_lt_not_gt_iff]
  unfold State.setSlope
  have e1 : fin (DEFAULT_SLOPE b) / fin 10 = fin (DEFAULT_SLOPE b / 10) := by simp
  rw [e1, FVal.fin_mul_fin]
  cases h : (FVal.lt v (fin (DEFAULT_SLOPE b / 10))
    || FVal.gt v (fin (DEFAULT_SLOPE b * 10))) <;> simp [h]

/-- The state after `setSlope`: the value is stored exactly when the call succeeds. -/
theorem setSlope_snd (b : Board) (s : State) (v : FVal) :
    (s.setSlope b v).2 = if (s.setSlope b v).1 then { s with slope := v } else s := by
  unfold State.setSlope
  split <;> simp

/-- C5, as stated, fails on `NaN`: `setVTemp25 (NaN)` returns true and stores `NaN`,
although `0 ≤ NaN ≤ 5` does not hold. -/
theorem setVTemp25_nan_counterexample :
    (ctor Board.other).setVTemp25 nan
        = (true, { slope := fin (DEFAULT_SLOPE Board.other), vTemp25 := nan }) ∧
    ¬ (FVal.le (fin 0) nan = true ∧ FVal.le nan (fin 5) = true) := by
  constructor
  · simp [State.setVTemp25, ctor]
  · simp

/-- C5 (amended): for every state and every `v`, `setVTemp25 v` returns true and sets
`vTemp25` to `v` if and only if `0 ≤ v ≤ 5` or `v` is `NaN`; otherwise it returns false
and leaves `vTemp25` and `slope` unchanged.  `v = 0` and `v = 5` both succeed. -/
theorem setVTemp25_accepts_iff (s : State) (v : FVal) :
    (s.setVTemp25 v = (true, { s with vTemp25 := v }) ↔
        (FVal.le (fin 0) v = true ∧ FVal.le v (fin 5) = true) ∨ v = nan) ∧
    (s.setVTemp25 v = (false, s) ↔
        ¬ ((FVal.le (fin 0) v = true ∧ FVal.le v (fin 5) = true) ∨ v = nan)) ∧
    s.setVTemp25 (fin 0) = (true, { s with vTemp25 := fin 0 }) ∧
    s.setVTemp25 (fin 5) = (true, { s with vTemp25 := fin 5 }) := by
  have h1 := setVTemp25_fst s v
  have h2 := setVTemp25_snd s v
  refine ⟨?_, ?_, ?_, ?_⟩
  · rw [← h1, Prod.ext_iff]
    cases h : (s.setVTemp25 v).1 <;> simp [h] at h2 ⊢
    exact h2
  · rw [← h1, Prod.ext_iff]
    cases h : (s.setVTemp25 v).1 <;> simp [h] at h2 ⊢
    exact h2
  · simp [State.setVTemp25]
  · simp [State.setVTemp25]

/-- The `float` argument of the call `setSlope (DEFAULT_SLOPE * 10.0)` on the boards other
than Teensy 3.0-3.2: the constant 0.00162 as a `double`, multiplied by `10.0` in `double`,
converted to the `float` parameter. -/
theorem toFloat_upper_bound :
    FVal.toFloat (FVal.toDouble (FVal.toDouble (fin (DEFAULT_SLOPE Board.other)) * fin 10))
      = fin (8697309 / 536870912) := by
  have h1 : FVal.toDouble (fin (DEFAULT_SLOPE Board.other))
      = fin (466933209365773 / 288230376151711744) := by
    have h := roundRat_eq 53 (-1074) 1024 (q := 162 / 100000)
      (-62) 7470931349852368 (by norm_num) (by norm_num [abs_div]) (by norm_num [abs_div])
      (by norm_num) (roundHalfEven_of_abs_lt (by norm_num [abs_lt])) (by norm_num [abs_div])
    rw [DEFAULT_SLOPE, FVal.toDouble, h]
    norm_num
  have h2 : FVal.toDouble (fin (466933209365773 / 288230376151711744) * fin 10)
      = fin (2334666046828865 / 144115188075855872) := by
    have h := roundRat_eq 53 (-1074) 1024
      (q := 466933209365773 / 288230376151711744 * 10)
      (-58) 4669332093657730 (by norm_num) (by norm_num [abs_div]) (by norm_num [abs_div])
      (by norm_num) (roundHalfEven_of_abs_lt (by norm_num [abs_lt])) (by norm_num [abs_div])
    rw [FVal.fin_mul_fin, FVal.toDouble, h]
    norm_num
  have h3 : FVal.toFloat (fin (2334666046828865 / 144115188075855872))
      = fin (8697309 / 536870912) := by
    have h := roundRat_eq 24 (-149) 128
      (q := 2334666046828865 / 144115188075855872)
      (-29) 8697309 (by norm_num) (by norm_num [abs_div]) (by norm_num [abs_div])
      (by norm_num) (roundHalfEven_of_abs_lt (by norm_num [abs_lt])) (by norm_num [abs_div])
    rw [FVal.toFloat, h]
    norm_num
  rw [h1, h2, h3]

/-- C6, as stated, fails in two ways.  On `NaN`: `setSlope (NaN)` returns true and stores
`NaN`, although `DEFAULT_SLOPE / 10 ≤ NaN ≤ DEFAULT_SLOPE * 10` does not hold.  On the
boundary: the `float` that the call `setSlope (DEFAULT_SLOPE * 10.0)` passes is
`8697309 / 2^29`, which lies above `DEFAULT_SLOPE * 10`; the call returns false and leaves
the state unchanged. -/
theorem setSlope_accepts_iff_counterexample :
    ((ctor Board.other).setSlope Board.other nan
        = (true, { slope := nan, vTemp25 := fin (DEFAULT_VTEMP25 Board.other) }) ∧
      ¬ (FVal.le (fin (DEFAULT_SLOPE Board.other / 10)) nan = true
          ∧ FVal.le nan (fin (DEFAULT_SLOPE Board.other * 10)) = true)) ∧
    (FVal.toFloat (FVal.toDouble (FVal.toDouble (fin (DEFAULT_SLOPE Board.other)) * fin 10))
        = fin (8697309 / 536870912) ∧
      (ctor Board.other).setSlope Board.other (fin (8697309 / 536870912))
        = (false, ctor Board.other)) := by
  refine ⟨⟨?_, ?_⟩, toFloat_upper_bound, ?_⟩
  · simp [State.setSlope, ctor]
  · simp
  · simp [State.setSlope, DEFAULT_SLOPE]
    norm_num

/-- C6 (amended): for every board, state and `v`, `setSlope v` returns true and sets
`slope` to `v` if and only if `DEFAULT_SLOPE / 10 ≤ v ≤ DEFAULT_SLOPE * 10` or `v` is
`NaN`; otherwise it returns false and leaves `slope` and `vTemp25` unchanged. -/
theorem setSlope_accepts_iff (b : Board) (s : State) (v : FVal) :
    (s.setSlope b v = (true, { s with slope := v }) ↔
        (FVal.le (fin (DEFAULT_SLOPE b / 10)) v = true
          ∧ FVal.le v (fin (DEFAULT_SLOPE b * 10)) = true) ∨ v = nan) ∧
    (s.setSlope b v = (false, s) ↔
        ¬ ((FVal.le (fin (DEFAULT_SLOPE b / 10)) v = true
          ∧ FVal.le v (fin (DEFAULT_SLOPE b * 10)) = true) ∨ v = nan)) := by
  have h1 := setSlope_fst b s v
  have h2 := setSlope_snd b s v
  refine ⟨?_, ?_⟩
  · rw [← h1, Prod.ext_iff]
    cases h : (s.setSlope b v).1 <;> simp [h] at h2 ⊢
    exact h2
  · rw [← h1, Prod.ext_iff]
    cases h : (s.setSlope b v).1 <;> simp [h] at h2 ⊢
    exact h2

/-! ## Single-point calibration -/

/-- `singlePointCalibrationC` is `setVTemp25` applied to the candidate offset. -/
theorem singlePointCalibrationC_eq (b : Board) (s : State) (actual measured : FVal)
    (fromDefault : Bool) :
    s.singlePointCalibrationC b actual measured fromDefault
      = s.setVTemp25 ((if fromDefault then fin (DEFAULT_VTEMP25 b) else s.vTemp25)
          - (measured - actual) * (if fromDefault then fin (DEFAULT_SLOPE b) else s.slope)) :=
  rfl

/-- C2, as stated, fails when the candidate is `NaN`: in the state with both parameters
`NaN` (the state the constructor state reaches by `dualPointCalibrationC (25, 19, 25, 19,
true)`), `singlePointCalibrationC (20, 19, false)` returns true although its candidate
`c` does not satisfy `0 ≤ c ≤ 5`. -/
theorem singlePointCalibrationC_nan_counterexample :
    (ctor Board.other).dualPointCalibrationC Board.other (fin 25) (fin 19) (fin 25) (fin 19) true
      = (true, { slope := nan, vTemp25 := nan }) ∧
    (State.singlePointCalibrationC Board.other { slope := nan, vTemp25 := nan }
      (fin 20) (fin 19) false).1 = true ∧
    ¬ (FVal.le (fin 0) (nan - (fin 19 - fin 20) * nan) = true
        ∧ FVal.le (nan - (fin 19 - fin 20) * nan) (fin 5) = true) := by
  refine ⟨?_, ?_, ?_⟩
  · simp [State.dualPointCalibrationC, State.setSlope, State.setVTemp25, State.baseSlope,
      State.baseVTemp25, ctor, FVal.fin_div_fin, FVal.signedInf]
  · simp [State.singlePointCalibrationC, State.setVTemp25, State.baseSlope, State.baseVTemp25]
  · simp

/-- C2 (amended): for every state, every actual and measured temperature and either
value of `fromDefault`, `singlePointCalibrationC` returns true exactly when the candidate
`c = baseVTemp25 - (measured - actual) * baseSlope` satisfies `0 ≤ c ≤ 5` or is `NaN`,
and when it returns true the stored `vTemp25` equals `c`; the base parameters are the
current ones when `fromDefault` is false and the defaults when it is true. -/
theorem singlePointCalibrationC_accepts_iff (b : Board) (s : State) (actual measured : FVal)
    (fromDefault : Bool) (baseVTemp25 baseSlope c : FVal)
    (hv : baseVTemp25 = if fromDefault then fin (DEFAULT_VTEMP25 b) else s.vTemp25)
    (hs : baseSlope = if fromDefault then fin (DEFAULT_SLOPE b) else s.slope)
    (hc : c = baseVTemp25 - (measured - actual) * baseSlope) :
    ((s.singlePointCalibrationC b actual measured fromDefault).1 = true ↔
        (FVal.le (fin 0) c = true ∧ FVal.le c (fin 5) = true) ∨ c = nan) ∧
    ((s.singlePointCalibrationC b actual measured fromDefault).1 = true →
        (s.singlePointCalibrationC b actual measured fromDefault).2.vTemp25 = c) := by
  subst hv hs
  rw [singlePointCalibrationC_eq, ← hc]
  refine ⟨setVTemp25_fst s c, fun h => ?_⟩
  rw [setVTemp25_snd, h]
  rfl

/-- C2 (amended), at the self-test call `singlePointCalibrationC (20.0, 19.0, true)` on
the constructor state: the candidate is 0.71762, the call returns true and stores it. -/
theorem singlePointCalibrationC_accepts_iff_witness :
    (FVal.le (fin 0) (fin (71762 / 100000)) = true
      ∧ FVal.le (fin (71762 / 100000)) (fin 5) = true) ∧
    ((ctor Board.other).singlePointCalibrationC Board.other (fin 20) (fin 19) true).1 = true ∧
    ((ctor Board.other).singlePointCalibrationC Board.other (fin 20) (fin 19) true).2.vTemp25
      = fin (71762 / 100000) := by
  have hin : FVal.le (fin 0) (fin (71762 / 100000)) = true
      ∧ FVal.le (fin (71762 / 100000)) (fin 5) = true := by
    constructor <;> simp <;> norm_num
  have h := singlePointCalibrationC_accepts_iff Board.other (ctor Board.other) (fin 20) (fin 19)
    true (fin (716 / 1000)) (fin (162 / 100000)) (fin (71762 / 100000))
    (by simp [DEFAULT_VTEMP25]) (by simp [DEFAULT_SLOPE]) (by simp; norm_num)
  exact ⟨hin, h.1.2 (Or.inl hin), h.2 (h.1.2 (Or.inl hin))⟩

/-- C8: `singlePointCalibrationC` never changes `slope`, whatever its arguments and its
result; and whenever it returns false the whole state equals the pre-call state. -/
theorem singlePointCalibrationC_frame (b : Board) (s : State) (actual measured : FVal)
    (fromDefault : Bool) :
    (s.singlePointCalibrationC b actual measured fromDefault).2.slope = s.slope ∧
    ((s.singlePointCalibrationC b actual measured fromDefault).1 = false →
      (s.singlePointCalibrationC b actual measured fromDefault).2 = s) := by
  rw [singlePointCalibrationC_eq]
  generalize (if fromDefault then fin (DEFAULT_VTEMP25 b) else s.vTemp25)
    - (measured - actual) * (if fromDefault then fin (DEFAULT_SLOPE b) else s.slope) = c
  constructor
  · exact setVTemp25_slope s c
  · intro h
    rw [setVTemp25_snd, h]
    rfl

/-- C8, at a rejected call: from the constructor state, `singlePointCalibrationC (0,
10000, true)` returns false and the state is the constructor state. -/
theorem singlePointCalibrationC_frame_witness :
    ((ctor Board.other).singlePointCalibrationC Board.other (fin 0) (fin 10000) true).1 = false ∧
    ((ctor Board.other).singlePointCalibrationC Board.other (fin 0) (fin 10000) true).2
      = ctor Board.other := by
  have h0 : ((ctor Board.other).singlePointCalibrationC Board.other
      (fin 0) (fin 10000) true).1 = false := by
    simp [State.singlePointCalibrationC, State.setVTemp25, State.baseSlope, State.baseVTemp25,
      DEFAULT_SLOPE, DEFAULT_VTEMP25]
    norm_num
  exact ⟨h0, (singlePointCalibrationC_frame Board.other (ctor Board.other) (fin 0) (fin 10000)
    true).2 h0⟩

/-! ## Dual-point calibration -/

/-- The three outcomes of `dualPointCalibrationC`: slope rejected (nothing stored),
slope stored and offset rejected, both stored. -/
theorem dualPointCalibrationC_eq (b : Board) (s : State) (a1 m1 a2 m2 : FVal) (fd : Bool) :
    s.dualPointCalibrationC b a1 m1 a2 m2 fd =
      if (s.setSlope b (s.dualSlopeCandidate b a1 m1 a2 m2 fd)).1 then
        if (s.setVTemp25 (s.dualOffsetCandidate b a1 m1 a2 m2 fd)).1 then
          (true, { slope := s.dualSlopeCandidate b a1 m1 a2 m2 fd,
                   vTemp25 := s.dualOffsetCandidate b a1 m1 a2 m2 fd })
        else
          (false, { s with slope := s.dualSlopeCandidate b a1 m1 a2 m2 fd })
      else
        (false, s) := by
  have hd : s.dualPointCalibrationC b a1 m1 a2 m2 fd =
      if (s.setSlope b (s.dualSlopeCandidate b a1 m1 a2 m2 fd)).1 then
        (s.setSlope b (s.dualSlopeCandidate b a1 m1 a2 m2 fd)).2.setVTemp25
          (s.dualOffsetCandidate b a1 m1 a2 m2 fd)
      else (false, (s.setSlope b (s.dualSlopeCandidate b a1 m1 a2 m2 fd)).2) := rfl
  rw [hd, setSlope_snd]
  cases h1 : (s.setSlope b (s.dualSlopeCandidate b a1 m1 a2 m2 fd)).1
  · simp
  · simp only [if_true]
    generalize s.dualSlopeCandidate b a1 m1 a2 m2 fd = c
    generalize s.dualOffsetCandidate b a1 m1 a2 m2 fd = o
    unfold State.setVTemp25
    cases h2 : (FVal.lt o (fin 0) || FVal.gt o (fin 5)) <;> simp

/-- C9, as stated, fails when the slope candidate is `NaN`: from the constructor state,
`dualPointCalibrationC (25, 19, 25, 19, true)` has the slope candidate `0.00162 * 0 / 0`,
which is not within `[DEFAULT_SLOPE / 10, DEFAULT_SLOPE * 10]`, and yet the call returns
true and overwrites both parameters. -/
theorem dualPointCalibrationC_slope_rejected_counterexample :
    ¬ (FVal.le (fin (DEFAULT_SLOPE Board.other / 10))
          (fin (DEFAULT_SLOPE Board.other) * (fin 19 - fin 19) / (fin 25 - fin 25)) = true
        ∧ FVal.le (fin (DEFAULT_SLOPE Board.other) * (fin 19 - fin 19) / (fin 25 - fin 25))
          (fin (DEFAULT_SLOPE Board.other * 10)) = true) ∧
    ((ctor Board.other).dualPointCalibrationC Board.other (fin 25) (fin 19) (fin 25) (fin 19)
      true).1 = true ∧
    ((ctor Board.other).dualPointCalibrationC Board.other (fin 25) (fin 19) (fin 25) (fin 19)
      true).2 ≠ ctor Board.other := by
  have hev : (ctor Board.other).dualPointCalibrationC Board.other (fin 25) (fin 19) (fin 25)
      (fin 19) true = (true, { slope := nan, vTemp25 := nan }) := by
    simp [State.dualPointCalibrationC, State.setSlope, State.setVTemp25, State.baseSlope,
      State.baseVTemp25, ctor, FVal.fin_div_fin, FVal.signedInf]
  refine ⟨?_, ?_, ?_⟩
  · simp [FVal.fin_div_fin, FVal.signedInf]
  · rw [hev]
  · rw [hev]
    simp [ctor]

/-- C9 (amended): for every `dualPointCalibrationC` call whose slope candidate `baseSlope *
(measured2 - measured1) / (actual2 - actual1)` is not `NaN` and lies outside
`[DEFAULT_SLOPE / 10, DEFAULT_SLOPE * 10]`, the call returns false and leaves both `slope`
and `vTemp25` at their pre-call values. -/
theorem dualPointCalibrationC_slope_rejected (b : Board) (s : State) (actual1 measured1
    actual2 measured2 : FVal) (fromDefault : Bool) (baseSlope newSlope : FVal)
    (hs : baseSlope = if fromDefault then fin (DEFAULT_SLOPE b) else s.slope)
    (hn : newSlope = baseSlope * (measured2 - measured1) / (actual2 - actual1))
    (hnan : newSlope ≠ nan)
    (hout : ¬ (FVal.le (fin (DEFAULT_SLOPE b / 10)) newSlope = true
      ∧ FVal.le newSlope (fin (DEFAULT_SLOPE b * 10)) = true)) :
    s.dualPointCalibrationC b actual1 measured1 actual2 measured2 fromDefault = (false, s) := by
  have hc : s.dualSlopeCandidate b actual1 measured1 actual2 measured2 fromDefault
      = newSlope := by
    rw [hn, hs]
    rfl
  have hrej : (s.setSlope b newSlope).1 = false := by
    cases h : (s.setSlope b newSlope).1
    · rfl
    · rcases (setSlope_fst b s newSlope).1 h with h' | h'
      · exact absurd h' hout
      · exact absurd h' hnan
  rw [dualPointCalibrationC_eq, hc, hrej]
  simp

/-- C9 (amended), at the self-test call `dualPointCalibrationC (25.0, 25.0, 25.0, 19.0,
true)` on the constructor state: the slope candidate is `-∞`, the call returns false and
the state is the constructor state. -/
theorem dualPointCalibrationC_slope_rejected_witness :
    fin (DEFAULT_SLOPE Board.other) * (fin 19 - fin 25) / (fin 25 - fin 25) = ninf ∧
    (ctor Board.other).dualPointCalibrationC Board.other (fin 25) (fin 25) (fin 25) (fin 19) true
      = (false, ctor Board.other) := by
  have hc : fin (DEFAULT_SLOPE Board.other) * (fin 19 - fin 25) / (fin 25 - fin 25) = ninf := by
    simp [FVal.fin_div_fin, FVal.signedInf, DEFAULT_SLOPE]
    norm_num
  exact ⟨hc, dualPointCalibrationC_slope_rejected Board.other (ctor Board.other) (fin 25) (fin 25)
    (fin 25) (fin 19) true (fin (DEFAULT_SLOPE Board.other)) ninf (by simp) hc.symm
    (by simp) (by simp [FVal.le])⟩

/-- C10, as stated, fails when the offset candidate is `NaN`.  The state with slope
0.00162 and `vTemp25 = NaN` is reached from the constructor state by
`dualPointCalibrationC (25, 19, 25, 19, true)` followed by `setSlope (0.00162)`.  There,
`dualPointCalibrationC (25, 19, 26, 20, false)` has the slope candidate 0.00162, which is
in range and passes `setSlope`, and an offset candidate that is not within `[0, 5]`; yet
the call returns true. -/
theorem dualPointCalibrationC_not_transactional_counterexample :
    (State.setSlope Board.other
        ((ctor Board.other).dualPointCalibrationC Board.other (fin 25) (fin 19) (fin 25)
          (fin 19) true).2 (fin (162 / 100000))).2
      = { slope := fin (162 / 100000), vTemp25 := nan } ∧
    fin (162 / 100000) * (fin 20 - fin 19) / (fin 26 - fin 25) = fin (162 / 100000) ∧
    (State.setSlope Board.other { slope := fin (162 / 100000), vTemp25 := nan }
      (fin (162 / 100000))).1 = true ∧
    ¬ (FVal.le (fin 0) (nan - (fin 19 - fin 25) * fin (162 / 100000)
          + (fin 25 - fin 25) * fin (162 / 100000)) = true
        ∧ FVal.le (nan - (fin 19 - fin 25) * fin (162 / 100000)
          + (fin 25 - fin 25) * fin (162 / 100000)) (fin 5) = true) ∧
    (State.dualPointCalibrationC Board.other { slope := fin (162 / 100000), vTemp25 := nan }
      (fin 25) (fin 19) (fin 26) (fin 20) false).1 = true := by
  have hev : (ctor Board.other).dualPointCalibrationC Board.other (fin 25) (fin 19) (fin 25)
      (fin 19) true = (true, { slope := nan, vTemp25 := nan }) := by
    simp [State.dualPointCalibrationC, State.setSlope, State.setVTemp25, State.baseSlope,
      State.baseVTemp25, ctor, FVal.fin_div_fin, FVal.signedInf]
  have hpass : (State.setSlope Board.other { slope := fin (162 / 100000), vTemp25 := nan }
      (fin (162 / 100000))).1 = true := by
    simp [State.setSlope, DEFAULT_SLOPE]
    norm_num
  refine ⟨?_, ?_, hpass, ?_, ?_⟩
  · rw [hev]
    simp [State.setSlope, DEFAULT_SLOPE]
    norm_num
  · norm_num
  · simp
  · simp [State.dualPointCalibrationC, State.setSlope, State.setVTemp25, State.baseSlope,
      State.baseVTemp25, DEFAULT_SLOPE]
    norm_num

/-- C10 (amended): `dualPointCalibrationC` is not transactional: for every call whose
slope candidate passes the range check of `setSlope` but whose offset candidate is not
`NaN` and lies outside `[0, 5]`, the call returns false, `slope` has been overwritten with
the slope candidate and `vTemp25` keeps its pre-call value; and such calls exist: from the
constructor state 0.716 / 0.00162, `dualPointCalibrationC (25, 10000, 26, 10002, true)`
returns false and leaves `slope = 0.00324`, `vTemp25 = 0.716`. -/
theorem dualPointCalibrationC_not_transactional (b : Board) (s : State) (actual1 measured1
    actual2 measured2 : FVal) (fromDefault : Bool)
    (baseSlope baseVTemp25 newSlope newVTemp25 : FVal)
    (hs : baseSlope = if fromDefault then fin (DEFAULT_SLOPE b) else s.slope)
    (hv : baseVTemp25 = if fromDefault then fin (DEFAULT_VTEMP25 b) else s.vTemp25)
    (hn : newSlope = baseSlope * (measured2 - measured1) / (actual2 - actual1))
    (ho : newVTemp25
      = baseVTemp25 - (measured1 - fin 25) * baseSlope + (actual1 - fin 25) * newSlope)
    (hpass : (s.setSlope b newSlope).1 = true)
    (hnan : newVTemp25 ≠ nan)
    (hout : ¬ (FVal.le (fin 0) newVTemp25 = true ∧ FVal.le newVTemp25 (fin 5) = true)) :
    s.dualPointCalibrationC b actual1 measured1 actual2 measured2 fromDefault
        = (false, { slope := newSlope, vTemp25 := s.vTemp25 }) ∧
    (ctor Board.other).dualPointCalibrationC Board.other (fin 25) (fin 10000) (fin 26)
        (fin 10002) true
      = (false, { slope := fin (324 / 100000), vTemp25 := fin (716 / 1000) }) := by
  have hc : s.dualSlopeCandidate b actual1 measured1 actual2 measured2 fromDefault
      = newSlope := by
    rw [hn, hs]
    rfl
  have hoc : s.dualOffsetCandidate b actual1 measured1 actual2 measured2 fromDefault
      = newVTemp25 := by
    rw [ho, hn, hv, hs]
    rfl
  have hrej : (s.setVTemp25 newVTemp25).1 = false := by
    cases h : (s.setVTemp25 newVTemp25).1
    · rfl
    · rcases (setVTemp25_fst s newVTemp25).1 h with h' | h'
      · exact absurd h' hout
      · exact absurd h' hnan
  constructor
  · rw [dualPointCalibrationC_eq, hc, hoc, hpass, hrej]
    simp
  · simp [State.dualPointCalibrationC, State.setSlope, State.setVTemp25, State.baseSlope,
      State.baseVTemp25, ctor, DEFAULT_SLOPE, DEFAULT_VTEMP25]
    norm_num

/-- C10 (amended), at the call of the claim: from the constructor state,
`dualPointCalibrationC (25, 10000, 26, 10002, true)` has the slope candidate 0.00324, which
passes `setSlope`, and the offset candidate -15.4435, which lies below 0; the call returns
false with `slope = 0.00324` and `vTemp25 = 0.716`. -/
theorem dualPointCalibrationC_not_transactional_witness :
    ((ctor Board.other).setSlope Board.other (fin (324 / 100000))).1 = true ∧
    FVal.lt (fin (-154435 / 10000)) (fin 0) = true ∧
    (ctor Board.other).dualPointCalibrationC Board.other (fin 25) (fin 10000) (fin 26)
        (fin 10002) true
      = (false, { slope := fin (324 / 100000), vTemp25 := fin (716 / 1000) }) := by
  have hpass : ((ctor Board.other).setSlope Board.other (fin (324 / 100000))).1 = true := by
    simp [State.setSlope, DEFAULT_SLOPE]
    norm_num
  refine ⟨hpass, by simp; norm_num, ?_⟩
  exact (dualPointCalibrationC_not_transactional Board.other (ctor Board.other) (fin 25)
    (fin 10000) (fin 26) (fin 10002) true (fin (162 / 100000)) (fin (716 / 1000))
    (fin (324 / 100000)) (fin (-154435 / 10000)) (by simp [DEFAULT_SLOPE])
    (by simp [DEFAULT_VTEMP25]) (by simp; norm_num) (by simp; norm_num) hpass (by simp)
    (by simp; norm_num)).1

/-! ## Range invariants along call sequences -/

/-- `setVTemp25` keeps "in range or `NaN`". -/
theorem setVTemp25_inRangeOrNaN (b : Board) (s : State) (v : FVal) (h : s.inRangeOrNaN b) :
    (s.setVTemp25 v).2.inRangeOrNaN b := by
  rw [setVTemp25_snd]
  cases hr : (s.setVTemp25 v).1
  · exact h
  · exact ⟨(setVTemp25_fst s v).1 hr, h.2⟩

/-- `setSlope` keeps "in range or `NaN`". -/
theorem setSlope_inRangeOrNaN (b : Board) (s : State) (v : FVal) (h : s.inRangeOrNaN b) :
    (s.setSlope b v).2.inRangeOrNaN b := by
  rw [setSlope_snd]
  cases hr : (s.setSlope b v).1
  · exact h
  · exact ⟨h.1, (setSlope_fst b s v).1 hr⟩

/-- The state after `dualPointCalibrationC`, as the two setter calls of the source. -/
theorem dualPointCalibrationC_snd (b : Board) (s : State) (a1 m1 a2 m2 : FVal) (fd : Bool) :
    (s.dualPointCalibrationC b a1 m1 a2 m2 fd).2 =
      if (s.setSlope b (s.dualSlopeCandidate b a1 m1 a2 m2 fd)).1 then
        ((s.setSlope b (s.dualSlopeCandidate b a1 m1 a2 m2 fd)).2.setVTemp25
          (s.dualOffsetCandidate b a1 m1 a2 m2 fd)).2
      else (s.setSlope b (s.dualSlopeCandidate b a1 m1 a2 m2 fd)).2 := by
  have hd : s.dualPointCalibrationC b a1 m1 a2 m2 fd =
      if (s.setSlope b (s.dualSlopeCandidate b a1 m1 a2 m2 fd)).1 then
        (s.setSlope b (s.dualSlopeCandidate b a1 m1 a2 m2 fd)).2.setVTemp25
          (s.dualOffsetCandidate b a1 m1 a2 m2 fd)
      else (false, (s.setSlope b (s.dualSlopeCandidate b a1 m1 a2 m2 fd)).2) := rfl
  rw [hd]
  split <;> rfl

/-- Every call keeps "in range or `NaN`", whatever its arguments. -/
theorem step_inRangeOrNaN (b : Board) (s : State) (c : Call) (h : s.inRangeOrNaN b) :
    (s.step b c).2.inRangeOrNaN b := by
  have hdual : ∀ a1 m1 a2 m2 fd,
      (s.dualPointCalibrationC b a1 m1 a2 m2 fd).2.inRangeOrNaN b := by
    intro a1 m1 a2 m2 fd
    rw [dualPointCalibrationC_snd]
    split
    · exact setVTemp25_inRangeOrNaN b _ _ (setSlope_inRangeOrNaN b s _ h)
    · exact setSlope_inRangeOrNaN b s _ h
  cases c with
  | setVTemp25 v => exact setVTemp25_inRangeOrNaN b s v h
  | setSlope v => exact setSlope_inRangeOrNaN b s v h
  | singlePointCalibrationC a m fd => exact setVTemp25_inRangeOrNaN b s _ h
  | singlePointCalibrationF a m fd => exact setVTemp25_inRangeOrNaN b s _ h
  | dualPointCalibrationC a1 m1 a2 m2 fd => exact hdual a1 m1 a2 m2 fd
  | dualPointCalibrationF a1 m1 a2 m2 fd => exact hdual _ _ _ _ fd

/-- Every call sequence keeps "in range or `NaN`". -/
theorem run_inRangeOrNaN (b : Board) (calls : List Call) :
    ∀ s : State, s.inRangeOrNaN b → (State.run b s calls).inRangeOrNaN b := by
  induction calls with
  | nil => exact fun s h => h
  | cons c cs ih => exact fun s h => ih _ (step_inRangeOrNaN b s c h)

/-- The default slope of either board is positive. -/
theorem DEFAULT_SLOPE_pos (b : Board) : 0 < DEFAULT_SLOPE b := by
  cases b <;> norm_num [DEFAULT_SLOPE]

/-- The constructor state satisfies both range invariants. -/
theorem ctor_inRange (b : Board) : (ctor b).inRange b := by
  have hp := DEFAULT_SLOPE_pos b
  refine ⟨⟨?_, ?_⟩, ⟨?_, ?_⟩⟩
  · cases b <;> simp [ctor, DEFAULT_VTEMP25] <;> norm_num
  · cases b <;> simp [ctor, DEFAULT_VTEMP25] <;> norm_num
  · simp only [ctor, FVal.le_fin_fin, decide_eq_true_eq]
    linarith
  · simp only [ctor, FVal.le_fin_fin, decide_eq_true_eq]
    linarith

/-- A state within the ranges is in particular "in range or `NaN`". -/
theorem inRangeOrNaN_of_inRange (b : Board) (s : State) (h : s.inRange b) :
    s.inRangeOrNaN b :=
  ⟨Or.inl h.1, Or.inl h.2⟩

/-- In a state within the ranges both base parameters are finite and the base slope is
not zero. -/
theorem base_finite (b : Board) (s : State) (fd : Bool) (h : s.inRange b) :
    ∃ k v0 : ℚ, (if fd then fin (DEFAULT_SLOPE b) else s.slope) = fin k ∧ k ≠ 0 ∧
      (if fd then fin (DEFAULT_VTEMP25 b) else s.vTemp25) = fin v0 := by
  have hp := DEFAULT_SLOPE_pos b
  cases fd with
  | true => exact ⟨DEFAULT_SLOPE b, DEFAULT_VTEMP25 b, rfl, ne_of_gt hp, rfl⟩
  | false =>
    obtain ⟨k, hk, hlo, -⟩ := FVal.eq_fin_of_le_of_le h.2.1 h.2.2
    obtain ⟨v0, hv0, -, -⟩ := FVal.eq_fin_of_le_of_le h.1.1 h.1.2
    refine ⟨k, v0, by simpa using hk, ?_, by simpa using hv0⟩
    intro h0
    rw [h0] at hlo
    linarith

/-- C7, as stated, fails: from the constructor state the single call
`dualPointCalibrationC (25, 19, 25, 19, true)` has the slope candidate `0.00162 * 0 / 0 =
NaN`, which both setters accept; the state reached has `slope = NaN` and `vTemp25 = NaN`
and violates both range invariants. -/
theorem run_ctor_invariant_counterexample :
    State.run Board.other (ctor Board.other)
        [Call.dualPointCalibrationC (fin 25) (fin 19) (fin 25) (fin 19) true]
      = { slope := nan, vTemp25 := nan } ∧
    ¬ (State.run Board.other (ctor Board.other)
        [Call.dualPointCalibrationC (fin 25) (fin 19) (fin 25) (fin 19) true]).inRange
          Board.other := by
  have hev : State.run Board.other (ctor Board.other)
      [Call.dualPointCalibrationC (fin 25) (fin 19) (fin 25) (fin 19) true]
        = { slope := nan, vTemp25 := nan } := by
    simp [State.run, State.step, State.dualPointCalibrationC, State.setSlope, State.setVTemp25,
      State.baseSlope, State.baseVTemp25, ctor, FVal.fin_div_fin, FVal.signedInf]
  refine ⟨hev, ?_⟩
  rw [hev]
  simp [State.inRange]

/-- C7 (amended): every state reachable from the constructor by any sequence of
`setVTemp25`, `setSlope`, `singlePointCalibrationC/F` and `dualPointCalibrationC/F` calls
(whatever each call returns) has each parameter within its range or `NaN`: `vTemp25` is
`NaN` or `0 ≤ vTemp25 ≤ 5`, and `slope` is `NaN` or `DEFAULT_SLOPE / 10 ≤ slope ≤
DEFAULT_SLOPE * 10`. -/
theorem run_ctor_invariant (b : Board) (calls : List Call) :
    (State.run b (ctor b) calls).inRangeOrNaN b :=
  run_inRangeOrNaN b calls _ (inRangeOrNaN_of_inRange b _ (ctor_inRange b))

/-! ## Unit conversion -/

/-- The default offset of either board lies within `[0, 5]`. -/
theorem DEFAULT_VTEMP25_mem (b : Board) : 0 ≤ DEFAULT_VTEMP25 b ∧ DEFAULT_VTEMP25 b ≤ 5 := by
  cases b <;> constructor <;> norm_num [DEFAULT_VTEMP25]

/-- C14, as stated, fails on an infinite temperature: from the constructor state (which
satisfies the range invariants), `singlePointCalibrationC (+∞, +∞, true)` has the delta
`∞ - ∞ = NaN`; it returns true and stores `NaN`, not `DEFAULT_VTEMP25`. -/
theorem singlePointCalibrationC_same_counterexample :
    (ctor Board.other).inRange Board.other ∧
    (ctor Board.other).singlePointCalibrationC Board.other pinf pinf true
      = (true, { slope := fin (DEFAULT_SLOPE Board.other), vTemp25 := nan }) ∧
    (nan : FVal) ≠ fin (DEFAULT_VTEMP25 Board.other) := by
  refine ⟨ctor_inRange Board.other, ?_, by simp⟩
  simp [State.singlePointCalibrationC, State.setVTemp25, State.baseSlope, State.baseVTemp25,
    ctor]

/-- C14 (amended): for every state satisfying the range invariants, every finite
temperature `t` and either value of `fromDefault`, `singlePointCalibrationC (t, t,
fromDefault)` returns true and leaves `vTemp25` equal to the base value selected by
`fromDefault`: the pre-call `vTemp25` when it is false, `DEFAULT_VTEMP25` when it is
true. -/
theorem singlePointCalibrationC_same (b : Board) (s : State) (t : ℚ) (fromDefault : Bool)
    (hin : s.inRange b) :
    (s.singlePointCalibrationC b (fin t) (fin t) fromDefault).1 = true ∧
    (s.singlePointCalibrationC b (fin t) (fin t) fromDefault).2.vTemp25
      = (if fromDefault then fin (DEFAULT_VTEMP25 b) else s.vTemp25) := by
  obtain ⟨k, v0, hk, -, hv0⟩ := base_finite b s fromDefault hin
  have hmem : 0 ≤ v0 ∧ v0 ≤ 5 := by
    cases fromDefault with
    | true =>
      have e : v0 = DEFAULT_VTEMP25 b := by
        simp only [if_true, FVal.fin.injEq] at hv0
        exact hv0.symm
      rw [e]
      exact DEFAULT_VTEMP25_mem b
    | false =>
      simp only [Bool.false_eq_true, if_false] at hv0
      have h1 := hin.1
      rw [hv0] at h1
      simpa using h1
  have hcand : (if fromDefault then fin (DEFAULT_VTEMP25 b) else s.vTemp25)
      - (fin t - fin t) * (if fromDefault then fin (DEFAULT_SLOPE b) else s.slope)
        = fin v0 := by
    rw [hk, hv0]
    simp
  have hret : (s.setVTemp25 (fin v0)).1 = true :=
    (setVTemp25_fst s (fin v0)).2 (Or.inl (by simpa using hmem))
  rw [singlePointCalibrationC_eq, hcand, setVTemp25_snd, hret, hv0]
  exact ⟨rfl, rfl⟩

/-- C14 (amended), on the constructor state with `t = 20` and `fromDefault = true`. -/
theorem singlePointCalibrationC_same_witness :
    (ctor Board.other).inRange Board.other ∧
    ((ctor Board.other).singlePointCalibrationC Board.other (fin 20) (fin 20) true).1 = true ∧
    ((ctor Board.other).singlePointCalibrationC Board.other (fin 20) (fin 20) true).2.vTemp25
      = fin (DEFAULT_VTEMP25 Board.other) :=
  ⟨ctor_inRange Board.other,
   singlePointCalibrationC_same Board.other (ctor Board.other) 20 true (ctor_inRange Board.other)⟩

/-- C16: with `fromDefault = true` calibration starts from the factory values and is
idempotent: for every state and every argument list, calling `singlePointCalibrationC`
(respectively `dualPointCalibrationC`, whether or not `actual1 ≠ actual2`) twice in a row
with the same arguments and `fromDefault = true` returns the same result both times and
leaves the same state as calling it once. -/
theorem calibration_fromDefault_idempotent (b : Board) (s : State) :
    (∀ actual measured : FVal,
      (s.singlePointCalibrationC b actual measured true).2.singlePointCalibrationC b
          actual measured true
        = s.singlePointCalibrationC b actual measured true) ∧
    (∀ actual1 measured1 actual2 measured2 : FVal,
      (s.dualPointCalibrationC b actual1 measured1 actual2 measured2
          true).2.dualPointCalibrationC b actual1 measured1 actual2 measured2 true
        = s.dualPointCalibrationC b actual1 measured1 actual2 measured2 true) := by
  constructor
  · intro actual measured
    simp only [State.singlePointCalibrationC, State.baseSlope, State.baseVTemp25, if_true]
    generalize fin (DEFAULT_VTEMP25 b) - (measured - actual) * fin (DEFAULT_SLOPE b) = c
    unfold State.setVTemp25
    cases h : (FVal.lt c (fin 0) || FVal.gt c (fin 5)) <;> simp [h]
  · intro actual1 measured1 actual2 measured2
    simp only [State.dualPointCalibrationC, State.baseSlope, State.baseVTemp25, if_true]
    generalize fin (DEFAULT_SLOPE b) * (measured2 - measured1) / (actual2 - actual1) = c
    generalize fin (DEFAULT_VTEMP25 b) - (measured1 - fin 25) * fin (DEFAULT_SLOPE b) = w
    generalize w + (actual1 - fin 25) * c = o
    unfold State.setSlope State.setVTemp25
    cases h1 : (FVal.lt c (fin (DEFAULT_SLOPE b) / fin 10)
        || FVal.gt c (fin (DEFAULT_SLOPE b) * fin 10)) <;>
      cases h2 : (FVal.lt o (fin 0) || FVal.gt o (fin 5)) <;> simp [h1, h2]

/-! ## Divisors -/

/-- The difference of two distinct values is not zero. -/
theorem FVal.sub_ne_zero_of_ne {x y : FVal} (h : x ≠ y) : y - x ≠ fin 0 := by
  intro h0
  obtain ⟨p, q, hp, hq, hpq⟩ := FVal.sub_eq_fin h0
  apply h
  rw [hp, hq, sub_eq_zero.mp hpq.symm]

/-- A slope that is within the range or `NaN` is not zero. -/
theorem slope_ne_zero_of_inRangeOrNaN (b : Board) (s : State) (h : s.inRangeOrNaN b) :
    s.slope ≠ fin 0 := by
  intro h0
  have hp := DEFAULT_SLOPE_pos b
  rcases h.2 with h1 | h1
  · rw [h0] at h1
    have := h1.1
    simp only [FVal.le_fin_fin, decide_eq_true_eq] at this
    linarith
  · rw [h0] at h1
    exact absurd h1 (by simp)

/-- The Fahrenheit temperature -40 converts to the Celsius `float` -40. -/
theorem toCelsiusRounded_neg40 : toCelsiusRounded (fin (-40)) = fin (-40) := by
  have h1 : FVal.toFloat (fin (-40) - fin 32) = fin (-72) := by
    have h := roundRat_eq 24 (-149) 128 (q := -40 - 32) (-17)
      (-9437184) (by norm_num) (by norm_num) (by norm_num) (by norm_num)
      (roundHalfEven_of_abs_lt (by norm_num)) (by norm_num)
    rw [FVal.fin_sub_fin, FVal.toFloat, h]
    norm_num
  have h2 : FVal.toDouble (fin (-72) * fin 5) = fin (-360) := by
    have h := roundRat_eq 53 (-1074) 1024 (q := -72 * 5) (-44)
      (-6333186975989760) (by norm_num) (by norm_num) (by norm_num) (by norm_num)
      (roundHalfEven_of_abs_lt (by norm_num)) (by norm_num)
    rw [FVal.fin_mul_fin, FVal.toDouble, h]
    norm_num
  have h3 : FVal.toDouble (fin (-360) / fin 9) = fin (-40) := by
    have h := roundRat_eq 53 (-1074) 1024 (q := -360 / 9) (-47)
      (-5629499534213120) (by norm_num) (by norm_num) (by norm_num) (by norm_num)
      (roundHalfEven_of_abs_lt (by norm_num)) (by norm_num)
    rw [FVal.fin_div_fin_of_ne _ (by norm_num), FVal.toDouble, h]
    norm_num
  have h4 : FVal.toFloat (fin (-40)) = fin (-40) := by
    have h := roundRat_eq 24 (-149) 128 (q := -40) (-18)
      (-10485760) (by norm_num) (by norm_num) (by norm_num) (by norm_num)
      (roundHalfEven_of_abs_lt (by norm_num)) (by norm_num)
    rw [FVal.toFloat, h]
    norm_num
  rw [toCelsiusRounded, h1, h2, h3, h4]

/-- The `float` next below -40, `-40 - 2^-18`, is a `float`, and as a Fahrenheit
temperature it converts to the Celsius `float` -40 as well: the subtraction of 32 is a
tie between -72 and `-72 - 2^-17` and rounds to -72. -/
theorem toCelsiusRounded_below_neg40 :
    FVal.toFloat (fin (-10485761 / 262144)) = fin (-10485761 / 262144) ∧
    toCelsiusRounded (fin (-10485761 / 262144)) = fin (-40) := by
  have h0 : FVal.toFloat (fin (-10485761 / 262144)) = fin (-10485761 / 262144) := by
    have h := roundRat_eq 24 (-149) 128 (q := -10485761 / 262144)
      (-18) (-10485761) (by norm_num) (by norm_num [abs_div]) (by norm_num [abs_div])
      (by norm_num) (roundHalfEven_of_abs_lt (by norm_num)) (by norm_num [abs_div])
    rw [FVal.toFloat, h]
    norm_num
  have h1 : FVal.toFloat (fin (-10485761 / 262144) - fin 32) = fin (-72) := by
    have h := roundRat_eq 24 (-149) 128
      (q := -10485761 / 262144 - 32) (-17) (-9437184) (by norm_num)
      (by norm_num [abs_div]) (by norm_num [abs_div]) (by norm_num)
      (roundHalfEven_of_tie (Or.inr (by norm_num)) (by norm_num)) (by norm_num)
    rw [FVal.fin_sub_fin, FVal.toFloat, h]
    norm_num
  refine ⟨h0, ?_⟩
  have h := toCelsiusRounded_neg40
  have h1' : FVal.toFloat (fin (-40) - fin 32) = fin (-72) := by
    have h := roundRat_eq 24 (-149) 128 (q := -40 - 32) (-17)
      (-9437184) (by norm_num) (by norm_num) (by norm_num) (by norm_num)
      (roundHalfEven_of_abs_lt (by norm_num)) (by norm_num)
    rw [FVal.fin_sub_fin, FVal.toFloat, h]
    norm_num
  rw [toCelsiusRounded, h1'] at h
  rw [toCelsiusRounded, h1, h]

/-- C15, as stated, fails for the Fahrenheit form: the two `float` temperatures -40 and
`-40 - 2^-18` (printed -40.000004) are different, but `toCelsius` maps both to the `float`
-40, so that `dualPointCalibrationF` with these two actual temperatures calls
`dualPointCalibrationC` with `actual1 = actual2` and the divisor `deltaActual` is zero. -/
theorem dualPointCalibrationF_divisor_counterexample :
    fin (-40) ≠ fin (-10485761 / 262144) ∧
    FVal.toFloat (fin (-40)) = fin (-40) ∧
    FVal.toFloat (fin (-10485761 / 262144)) = fin (-10485761 / 262144) ∧
    toCelsiusRounded (fin (-40)) = fin (-40) ∧
    toCelsiusRounded (fin (-10485761 / 262144)) = fin (-40) ∧
    FVal.toFloat (toCelsiusRounded (fin (-10485761 / 262144)) - toCelsiusRounded (fin (-40)))
      = fin 0 := by
  have hx : FVal.toFloat (fin (-40)) = fin (-40) := by
    have h := roundRat_eq 24 (-149) 128 (q := -40) (-18)
      (-10485760) (by norm_num) (by norm_num) (by norm_num) (by norm_num)
      (roundHalfEven_of_abs_lt (by norm_num)) (by norm_num)
    rw [FVal.toFloat, h]
    norm_num
  refine ⟨?_, hx, toCelsiusRounded_below_neg40.1, toCelsiusRounded_neg40,
    toCelsiusRounded_below_neg40.2, ?_⟩
  · intro h
    have := FVal.fin.inj h
    norm_num at this
  · rw [toCelsiusRounded_below_neg40.2, toCelsiusRounded_neg40]
    simp [FVal.toFloat, roundRat]

/-- C15 (amended): no operation divides by zero when each `dualPointCalibrationC` call
receives two different actual temperatures.  For every call of `dualPointCalibrationC`
with `actual1 ≠ actual2`, whatever the state and the other arguments (so also for the
call that `dualPointCalibrationF` makes on the converted temperatures), the result is the
one computed with the slope candidate `baseSlope * (measured2 - measured1) / d`, where
the divisor `d = actual2 - actual1` is not zero.  In every state reachable from the
constructor by setter and calibration calls, the slope by which `convertTemperatureC
(volts)` (current parameters) divides is not zero, and neither is the default slope by
which `convertUncalibratedTemperatureC (volts)` divides. -/
theorem no_division_by_zero (b : Board) (calls : List Call) :
    (∀ (s : State) (actual1 measured1 actual2 measured2 : FVal) (fromDefault : Bool)
        (baseSlope baseVTemp25 d newSlope : FVal),
      baseSlope = (if fromDefault then fin (DEFAULT_SLOPE b) else s.slope) →
      baseVTemp25 = (if fromDefault then fin (DEFAULT_VTEMP25 b) else s.vTemp25) →
      d = actual2 - actual1 →
      newSlope = baseSlope * (measured2 - measured1) / d →
      actual1 ≠ actual2 →
        d ≠ fin 0 ∧
        s.dualPointCalibrationC b actual1 measured1 actual2 measured2 fromDefault =
          if (s.setSlope b newSlope).1 then
            if (s.setVTemp25 (baseVTemp25 - (measured1 - fin 25) * baseSlope
                + (actual1 - fin 25) * newSlope)).1 then
              (true, { slope := newSlope,
                       vTemp25 := baseVTemp25 - (measured1 - fin 25) * baseSlope
                         + (actual1 - fin 25) * newSlope })
            else
              (false, { s with slope := newSlope })
          else
            (false, s)) ∧
    (State.run b (ctor b) calls).slope ≠ fin 0 ∧
    (∀ volts : FVal, (State.run b (ctor b) calls).convertTemperatureC volts
      = fin 25 - (volts - (State.run b (ctor b) calls).vTemp25)
          / (State.run b (ctor b) calls).slope) ∧
    fin (DEFAULT_SLOPE b) ≠ fin 0 ∧
    (∀ volts : FVal, convertUncalibratedTemperatureC b volts
      = fin 25 - (volts - fin (DEFAULT_VTEMP25 b)) / fin (DEFAULT_SLOPE b)) := by
  refine ⟨?_, ?_, fun _ => rfl, ?_, fun _ => rfl⟩
  · intro s actual1 measured1 actual2 measured2 fromDefault baseSlope baseVTemp25 d newSlope
      hs hv hd hn hne
    refine ⟨hd ▸ FVal.sub_ne_zero_of_ne hne, ?_⟩
    have hc : s.dualSlopeCandidate b actual1 measured1 actual2 measured2 fromDefault
        = newSlope := by
      rw [hn, hd, hs]
      rfl
    have ho : s.dualOffsetCandidate b actual1 measured1 actual2 measured2 fromDefault
        = baseVTemp25 - (measured1 - fin 25) * baseSlope + (actual1 - fin 25) * newSlope := by
      rw [hn, hd, hv, hs]
      rfl
    rw [dualPointCalibrationC_eq, hc, ho]
  · exact slope_ne_zero_of_inRangeOrNaN b _
      (run_inRangeOrNaN b calls _ (inRangeOrNaN_of_inRange b _ (ctor_inRange b)))
  · intro h
    exact absurd (FVal.fin.inj h) (ne_of_gt (DEFAULT_SLOPE_pos b))

/-- C15 (amended), at the call `dualPointCalibrationC (20, 21, 30, 31, true)` on the
constructor state: the divisor is `30 - 20`, not zero, and the call is the one computed
with the slope candidate `0.00162 * (31 - 21) / (30 - 20)`. -/
theorem no_division_by_zero_witness :
    fin 20 ≠ fin 30 ∧
    fin 30 - fin 20 ≠ fin 0 ∧
    (ctor Board.other).dualPointCalibrationC Board.other (fin 20) (fin 21) (fin 30) (fin 31)
        true =
      if ((ctor Board.other).setSlope Board.other
          (fin (162 / 100000) * (fin 31 - fin 21) / (fin 30 - fin 20))).1 then
        if ((ctor Board.other).setVTemp25 (fin (716 / 1000) - (fin 21 - fin 25)
            * fin (162 / 100000) + (fin 20 - fin 25)
              * (fin (162 / 100000) * (fin 31 - fin 21) / (fin 30 - fin 20)))).1 then
          (true, { slope := fin (162 / 100000) * (fin 31 - fin 21) / (fin 30 - fin 20),
                   vTemp25 := fin (716 / 1000) - (fin 21 - fin 25) * fin (162 / 100000)
                     + (fin 20 - fin 25)
                       * (fin (162 / 100000) * (fin 31 - fin 21) / (fin 30 - fin 20)) })
        else
          (false, { (ctor Board.other) with
            slope := fin (162 / 100000) * (fin 31 - fin 21) / (fin 30 - fin 20) })
      else
        (false, ctor Board.other) := by
  have hne : fin 20 ≠ fin 30 := by
    intro h
    have := FVal.fin.inj h
    norm_num at this
  have h := (no_division_by_zero Board.other []).1 (ctor Board.other) (fin 20) (fin 21) (fin 30)
    (fin 31) true (fin (162 / 100000)) (fin (716 / 1000)) (fin 30 - fin 20)
    (fin (162 / 100000) * (fin 31 - fin 21) / (fin 30 - fin 20))
    (by simp [DEFAULT_SLOPE]) (by simp [DEFAULT_VTEMP25]) rfl rfl hne
  exact ⟨hne, h.1, h.2⟩

/-! ## Dual-point calibration with equal actual temperatures -/

/-- C17, as stated, fails when the two measured temperatures are equal as well: from the
constructor state, `dualPointCalibrationC (25, 19, 25, 19, true)` has `actual1 = actual2`,
its slope candidate is `0.00162 * 0 / 0 = NaN`, which both setters accept, and the call
returns true with `slope` and `vTemp25` both overwritten by `NaN`. -/
theorem dualPointCalibrationC_equal_actuals_counterexample :
    (ctor Board.other).dualPointCalibrationC Board.other (fin 25) (fin 19) (fin 25) (fin 19) true
      = (true, { slope := nan, vTemp25 := nan }) ∧
    ((ctor Board.other).dualPointCalibrationC Board.other (fin 25) (fin 19) (fin 25) (fin 19)
      true).2.slope ≠ (ctor Board.other).slope ∧
    ((ctor Board.other).dualPointCalibrationC Board.other (fin 25) (fin 19) (fin 25) (fin 19)
      true).2.vTemp25 ≠ (ctor Board.other).vTemp25 := by
  have hev : (ctor Board.other).dualPointCalibrationC Board.other (fin 25) (fin 19) (fin 25)
      (fin 19) true = (true, { slope := nan, vTemp25 := nan }) := by
    simp [State.dualPointCalibrationC, State.setSlope, State.setVTemp25, State.baseSlope,
      State.baseVTemp25, ctor, FVal.fin_div_fin, FVal.signedInf]
  refine ⟨hev, ?_, ?_⟩
  · rw [hev]
    simp [ctor]
  · rw [hev]
    simp [ctor]

/-- Both infinities fail the range check of `setSlope`. -/
theorem setSlope_inf (b : Board) (s : State) :
    (s.setSlope b pinf).1 = false ∧ (s.setSlope b ninf).1 = false := by
  have e1 : fin (DEFAULT_SLOPE b) / fin 10 = fin (DEFAULT_SLOPE b / 10) := by simp
  constructor
  · simp [State.setSlope, e1, FVal.lt, FVal.gt]
  · simp [State.setSlope, e1, FVal.lt, FVal.gt]

/-- The slope candidate of a call with `actual1 = actual2`: an infinity when the common
actual temperature is finite and `p = baseSlope * (measured2 - measured1)` is neither zero
nor `NaN`, and `NaN` otherwise. -/
theorem div_sub_self (p actual : FVal) :
    (actual.isFinite = true ∧ p ≠ fin 0 ∧ p ≠ nan →
      p / (actual - actual) = pinf ∨ p / (actual - actual) = ninf) ∧
    (¬ (actual.isFinite = true ∧ p ≠ fin 0 ∧ p ≠ nan) → p / (actual - actual) = nan) := by
  cases actual with
  | fin x =>
    cases p with
    | fin u =>
      simp only [FVal.isFinite, FVal.fin_sub_fin, sub_self, FVal.fin_div_fin, if_true]
      constructor
      · rintro ⟨-, hu, -⟩
        have hu0 : u ≠ 0 := fun h => hu (by rw [h])
        rcases lt_or_gt_of_ne hu0 with h | h
        · exact Or.inr (FVal.signedInf_of_neg h)
        · exact Or.inl (FVal.signedInf_of_pos h)
      · intro h
        have hu0 : u = 0 := by
          by_contra hne
          exact h ⟨trivial, fun h0 => hne (FVal.fin.inj h0), by simp⟩
        simp [FVal.signedInf, hu0]
    | pinf => simp [FVal.isFinite]
    | ninf => simp [FVal.isFinite]
    | nan => simp [FVal.isFinite]
  | pinf => simp [FVal.isFinite]
  | ninf => simp [FVal.isFinite]
  | nan => simp [FVal.isFinite]

/-- C17 (amended): for every state and every call of `dualPointCalibrationC` with
`actualTemperature1C == actualTemperature2C` finite (any `fromDefault`) for which the
product `p = baseSlope * (measured2 - measured1)` that the call computes is neither zero
nor `NaN`, the slope candidate is an infinity and the call returns false and changes
neither `slope` nor `vTemp25`.  The self-test call `dualPointCalibrationC (25.0, 25.0,
25.0, 19.0, true)` is such a call. -/
theorem dualPointCalibrationC_equal_actuals (b : Board) (s : State)
    (actual measured1 measured2 : FVal) (fromDefault : Bool) (baseSlope p : FVal)
    (hs : baseSlope = if fromDefault then fin (DEFAULT_SLOPE b) else s.slope)
    (hp : p = baseSlope * (measured2 - measured1))
    (hfin : actual.isFinite = true) (hp0 : p ≠ fin 0) (hpn : p ≠ nan) :
    (p / (actual - actual) = pinf ∨ p / (actual - actual) = ninf) ∧
    s.dualPointCalibrationC b actual measured1 actual measured2 fromDefault = (false, s) ∧
    (ctor Board.other).dualPointCalibrationC Board.other (fin 25) (fin 25) (fin 25) (fin 19) true
      = (false, ctor Board.other) := by
  have hc : s.dualSlopeCandidate b actual measured1 actual measured2 fromDefault
      = p / (actual - actual) := by
    rw [hp, hs]
    rfl
  have hinf := (div_sub_self p actual).1 ⟨hfin, hp0, hpn⟩
  refine ⟨hinf, ?_, ?_⟩
  · rw [dualPointCalibrationC_eq, hc]
    rcases hinf with e | e
    · rw [e, (setSlope_inf b s).1]
      simp
    · rw [e, (setSlope_inf b s).2]
      simp
  · simp [State.dualPointCalibrationC, State.setSlope, State.baseSlope, ctor, DEFAULT_SLOPE,
      FVal.fin_div_fin, FVal.signedInf]
    norm_num [FVal.lt, FVal.gt]

/-- C17 (amended), at the self-test call `dualPointCalibrationC (25.0, 25.0, 25.0, 19.0,
true)` on the constructor state: `p = 0.00162 * (19 - 25)` is neither zero nor `NaN`, and
the call returns false leaving the constructor state. -/
theorem dualPointCalibrationC_equal_actuals_witness :
    (FVal.isFinite (fin 25) = true ∧ fin (162 / 100000 * (19 - 25)) ≠ fin 0
      ∧ fin (162 / 100000 * (19 - 25)) ≠ nan) ∧
    (ctor Board.other).dualPointCalibrationC Board.other (fin 25) (fin 25) (fin 25) (fin 19) true
      = (false, ctor Board.other) := by
  have h : FVal.isFinite (fin 25) = true ∧ fin (162 / 100000 * (19 - 25)) ≠ fin 0
      ∧ fin (162 / 100000 * (19 - 25)) ≠ nan := by
    refine ⟨rfl, ?_, by simp⟩
    simp
    norm_num
  exact ⟨h, (dualPointCalibrationC_equal_actuals Board.other (ctor Board.other) (fin 25)
    (fin 25) (fin 19) true (fin (162 / 100000)) (fin (162 / 100000 * (19 - 25)))
    (by simp [DEFAULT_SLOPE]) (by simp) h.1 h.2.1 h.2.2).2.1⟩

end InternalTemperature
